import Mathlib

/-!
Verification development for the kotlin-analyzer language server.

The definitions below are shallow embeddings of the Rust sources under
`src/server/src/` (bridge.rs, state.rs, jsonrpc.rs, project.rs, config.rs,
error.rs).  Pure functions are translated directly; the async tasks of the
bridge are modelled as explicit step functions over the data they mutate,
with oneshot-channel deliveries returned as explicit output lists.
Machine integers (u64, i32, usize) are modelled as Nat/Int; no claim below
depends on wrap-around.
-/

set_option maxRecDepth 4000

namespace KotlinAnalyzer

/-! ## Rust string primitives -/

/-- Rust `char::is_whitespace`, restricted to the ASCII whitespace characters
(the only ones the repository's streams contain). -/
def isRustWhitespace (c : Char) : Bool :=
  c = ' ' || c = '\t' || c = '\n' || c = '\r' || c = '\x0b' || c = '\x0c'

/-- Rust `str::trim` on a character list: drop whitespace from both ends. -/
def trimChars (cs : List Char) : List Char :=
  ((cs.dropWhile isRustWhitespace).reverse.dropWhile isRustWhitespace).reverse

/-- Rust `str::trim` on a `String`. -/
def rustTrim (s : String) : String :=
  String.mk (trimChars s.data)

/-- Rust `str::strip_prefix` on character lists: `some rest` when the second
argument is a prefix, `none` otherwise. -/
def stripPfxChars : List Char → List Char → Option (List Char)
  | cs, [] => some cs
  | [], _ :: _ => none
  | c :: cs, p :: ps => if c = p then stripPfxChars cs ps else none

/-- Rust `str::strip_prefix` on `String`s. -/
def rustStripPfx (s p : String) : Option String :=
  match stripPfxChars s.data p.data with
  | some rest => some (String.mk rest)
  | none => none

/-- Splits at every newline character; the piece before each newline is
emitted, and the final piece is emitted as well (it may be empty). -/
def splitNewlineAux (cur : List Char) : List Char → List (List Char)
  | [] => [cur.reverse]
  | c :: cs =>
    if c = '\n' then cur.reverse :: splitNewlineAux [] cs
    else splitNewlineAux (c :: cur) cs

/-- Strips one trailing carriage return, as Rust `str::lines` does per line. -/
def stripTrailingCr (l : List Char) : List Char :=
  match l.getLast? with
  | some '\r' => l.dropLast
  | _ => l

/-- Rust `str::lines`: split on newline terminators (a trailing empty piece is
not emitted) and strip one trailing carriage return from each line. -/
def rustLines (s : String) : List String :=
  let parts := splitNewlineAux [] s.data
  let parts :=
    match parts.getLast? with
    | some [] => parts.dropLast
    | _ => parts
  parts.map (fun l => String.mk (stripTrailingCr l))

/-- Rust `str::parse::<usize>()`: optional leading plus sign followed by at
least one decimal digit.  Overflow of the machine word is not modelled (no
claim depends on it). -/
def parseUsize (cs : List Char) : Option Nat :=
  let ds :=
    match cs with
    | '+' :: rest => rest
    | _ => cs
  if ds.isEmpty then none
  else if ds.all Char.isDigit then
    some (ds.foldl (fun n c => n * 10 + (c.toNat - '0'.toNat)) 0)
  else none

/-! ## JSON values and JSON-RPC messages (jsonrpc.rs) -/

/-- Minimal model of `serde_json::Value`. -/
inductive JValue where
  | null
  | bool (b : Bool)
  | num (n : Int)
  | str (s : String)
  | arr (elems : List JValue)
  | obj (fields : List (String × JValue))

/-- JSON-RPC response error object (`ResponseError` in jsonrpc.rs). -/
structure ResponseError where
  code : Int
  message : String
  data : Option JValue := none

/-- JSON-RPC 2.0 response (`Response` in jsonrpc.rs). -/
structure Response where
  jsonrpc : String
  id : Option Nat
  result : Option JValue
  error : Option ResponseError

/-- JSON-RPC 2.0 request (`Request` in jsonrpc.rs). -/
structure Request where
  jsonrpc : String
  id : Option Nat
  method : String
  params : Option JValue

/-- `Request::new` from jsonrpc.rs. -/
def Request.new (id : Nat) (method : String) (params : Option JValue) : Request :=
  { jsonrpc := "2.0", id := some id, method := method, params := params }

/-- `Request::notification` from jsonrpc.rs. -/
def Request.notification (method : String) (params : Option JValue) : Request :=
  { jsonrpc := "2.0", id := none, method := method, params := params }

/-! ## Error taxonomy (error.rs) -/

/-- `BridgeError` from error.rs. -/
inductive BridgeError where
  | NotReady (msg : String)
  | Crashed (msg : String)
  | Timeout (ms : Nat)
  | MalformedResponse (msg : String)
  | SpawnFailed (msg : String)
deriving DecidableEq

/-- `ProtocolError` from error.rs.  `JsonParse` carries the message of the
underlying serde error. -/
inductive ProtocolError where
  | InvalidJsonRpc (msg : String)
  | MissingContentLength
  | ContentLengthMismatch (expected actual : Nat)
  | JsonParse (msg : String)
deriving DecidableEq

/-- `ProjectError` from error.rs. -/
inductive ProjectError where
  | GradleFailed (msg : String)
  | NoBuildSystem (msg : String)
  | ClasspathExtraction (msg : String)
  | JvmNotFound (msg : String)
deriving DecidableEq

/-- Top-level `Error` from error.rs; I/O errors are carried as their message. -/
inductive Error where
  | Bridge (e : BridgeError)
  | Protocol (e : ProtocolError)
  | Project (e : ProjectError)
  | Io (msg : String)
deriving DecidableEq

/-! ## Sidecar state (bridge.rs) -/

/-- `SidecarState` from bridge.rs. -/
inductive SidecarState where
  | Starting
  | Ready
  | Degraded
  | Restarting
  | Stopped
deriving DecidableEq

/-- Rust `Debug` rendering of a `SidecarState` (the form interpolated by
format strings in bridge.rs). -/
def SidecarState.debugStr : SidecarState → String
  | .Starting => "Starting"
  | .Ready => "Ready"
  | .Degraded => "Degraded"
  | .Restarting => "Restarting"
  | .Stopped => "Stopped"

/-! ## Configuration (config.rs) -/

/-- `FormattingTool` from config.rs. -/
inductive FormattingTool where
  | Ktfmt
  | Ktlint
  | NoTool
deriving DecidableEq

/-- `TraceLevel` from config.rs. -/
inductive TraceLevel where
  | Off
  | Messages
  | Verbose
deriving DecidableEq

/-- `Config` from config.rs. -/
structure Config where
  java_home : Option String
  compiler_flags : List String
  formatting_tool : FormattingTool
  formatting_style : String
  sidecar_max_memory : String
  trace_server : TraceLevel
deriving DecidableEq

/-- `Config::default` from config.rs. -/
def Config.default : Config :=
  { java_home := none
    compiler_flags := []
    formatting_tool := .Ktfmt
    formatting_style := "google"
    sidecar_max_memory := "512m"
    trace_server := .Off }

/-! ## Project model and Gradle tagged-output parsing (project.rs) -/

/-- `BuildSystem` from project.rs. -/
inductive BuildSystem where
  | Gradle
  | Maven
  | NoBuild
deriving DecidableEq

/-- `ProjectModel` from project.rs; paths are carried as strings. -/
structure ProjectModel where
  project_root : String
  build_system : BuildSystem
  source_roots : List String
  classpath : List String
  compiler_flags : List String
  kotlin_version : Option String
  jdk_home : Option String
  has_compose : Bool
  generated_source_roots : List String
deriving DecidableEq

/-- The config-flag merge loop at the end of `parse_gradle_output` (and
likewise in `resolve_manual_config`): each config flag is appended unless the
list already contains a string-equal flag. -/
def mergeConfigFlags (flags : List String) (configFlags : List String) : List String :=
  configFlags.foldl (fun acc flag => if flag ∈ acc then acc else acc ++ [flag]) flags

/-- One iteration of the `for line in output.lines()` loop of
`parse_gradle_output`: the accumulator is the model under construction and
the `in_section` flag. -/
def parseGradleLine (acc : ProjectModel × Bool) (rawLine : String) : ProjectModel × Bool :=
  let model := acc.1
  let in_section := acc.2
  let line := rustTrim rawLine
  if line = "---KOTLIN-ANALYZER-START---" then (model, true)
  else if line = "---KOTLIN-ANALYZER-END---" then (model, false)
  else if !in_section then (model, in_section)
  else
    match rustStripPfx line "SOURCE_ROOT=" with
    | some path => ({ model with source_roots := model.source_roots ++ [path] }, in_section)
    | none =>
    match rustStripPfx line "CLASSPATH=" with
    | some path => ({ model with classpath := model.classpath ++ [path] }, in_section)
    | none =>
    match rustStripPfx line "CLASSPATH_ERROR=" with
    | some _ => (model, in_section)
    | none =>
    match rustStripPfx line "COMPILER_FLAG=" with
    | some flag => ({ model with compiler_flags := model.compiler_flags ++ [flag] }, in_section)
    | none =>
    match rustStripPfx line "KOTLIN_VERSION=" with
    | some version => ({ model with kotlin_version := some version }, in_section)
    | none =>
    match rustStripPfx line "KOTLIN_VERSION_ERROR=" with
    | some _ => (model, in_section)
    | none =>
    if line = "HAS_COMPOSE=true" then ({ model with has_compose := true }, in_section)
    else
    match rustStripPfx line "GENERATED_SOURCE_ROOT=" with
    | some path =>
        ({ model with generated_source_roots := model.generated_source_roots ++ [path] }, in_section)
    | none => (model, in_section)

/-- `parse_gradle_output` from project.rs.  The Rust function always returns
`Ok`, so the model is total. -/
def parse_gradle_output (output : String) (root : String) (config : Config) : ProjectModel :=
  let model0 : ProjectModel :=
    { project_root := root
      build_system := .Gradle
      source_roots := []
      classpath := []
      compiler_flags := []
      kotlin_version := none
      jdk_home := config.java_home
      has_compose := false
      generated_source_roots := [] }
  let model := ((rustLines output).foldl parseGradleLine (model0, false)).1
  { model with compiler_flags := mergeConfigFlags model.compiler_flags config.compiler_flags }

/-! ## Document store (state.rs) -/

/-- `Document` from state.rs. -/
structure Document where
  text : String
  version : Int
deriving DecidableEq

/-- Association-list update with `HashMap::insert` semantics: replace the
value when the key is present, append otherwise. -/
def insertAssoc (l : List (String × Document)) (k : String) (v : Document) :
    List (String × Document) :=
  match l with
  | [] => [(k, v)]
  | (k0, v0) :: rest =>
    if k0 = k then (k, v) :: rest else (k0, v0) :: insertAssoc rest k v

/-- Association-list lookup (`HashMap::get`). -/
def getAssoc (l : List (String × Document)) (k : String) : Option Document :=
  match l with
  | [] => none
  | (k0, v0) :: rest => if k0 = k then some v0 else getAssoc rest k

/-- Association-list removal (`HashMap::remove`). -/
def removeAssoc (l : List (String × Document)) (k : String) : List (String × Document) :=
  match l with
  | [] => []
  | (k0, v0) :: rest => if k0 = k then rest else (k0, v0) :: removeAssoc rest k

/-- `DocumentStore` from state.rs.  The hash maps are modelled as
association lists with unique keys; diagnostics payloads are opaque strings. -/
structure DocumentStore where
  documents : List (String × Document)
  diagnostics : List (String × List String)
deriving DecidableEq

/-- The empty store (`DocumentStore::default`). -/
def DocumentStore.empty : DocumentStore :=
  { documents := [], diagnostics := [] }

/-- `DocumentStore::open`: insert or replace. -/
def DocumentStore.openDoc (st : DocumentStore) (uri : String) (text : String)
    (version : Int) : DocumentStore :=
  { st with documents := insertAssoc st.documents uri { text := text, version := version } }

/-- `DocumentStore::change`: update if and only if the URI is present (no
version comparison is performed); returns whether the document existed. -/
def DocumentStore.change (st : DocumentStore) (uri : String) (text : String)
    (version : Int) : DocumentStore × Bool :=
  match getAssoc st.documents uri with
  | some _ =>
    ({ st with documents := insertAssoc st.documents uri { text := text, version := version } },
     true)
  | none => (st, false)

/-- `DocumentStore::close`: remove the document, keep the diagnostics cache. -/
def DocumentStore.close (st : DocumentStore) (uri : String) : DocumentStore × Bool :=
  ((match getAssoc st.documents uri with
    | some _ => { st with documents := removeAssoc st.documents uri }
    | none => st),
   (getAssoc st.documents uri).isSome)

/-- `DocumentStore::get`. -/
def DocumentStore.get (st : DocumentStore) (uri : String) : Option Document :=
  getAssoc st.documents uri

/-! ## Pending requests, response dispatch and the reader task (bridge.rs) -/

/-- A pending request (bridge.rs `PendingRequest`).  The oneshot sender is
modelled by the delivery lists the operations below return. -/
structure PendingRequest where
  id : Nat
deriving DecidableEq

/-- `Bridge::cancel_all_pending`: the pending vector is drained and every
waiter is sent `Crashed(reason)`.  The returned list is the sequence of
deliveries `(request id, payload)`; the caller's pending list becomes empty. -/
def cancel_all_pending (pending : List PendingRequest) (reason : String) :
    List (Nat × Except Error JValue) :=
  pending.map (fun p => (p.id, Except.error (Error.Bridge (BridgeError.Crashed reason))))

/-- `Bridge::dispatch_response`: returns the new pending list and the single
delivery made, if any.  A response without id, or whose id matches no entry,
consumes nothing; otherwise the first matching entry is removed and its
waiter receives the error conversion or the result (defaulting to null). -/
def dispatch_response (pending : List PendingRequest) (response : Response) :
    List PendingRequest × Option (Nat × Except Error JValue) :=
  match response.id with
  | none => (pending, none)
  | some id =>
    match List.findIdx? (fun p => p.id == id) pending with
    | some pos =>
      let result : Except Error JValue :=
        match response.error with
        | some e =>
          Except.error (Error.Bridge (BridgeError.MalformedResponse
            ("error " ++ toString e.code ++ ": " ++ e.message)))
        | none => Except.ok (response.result.getD JValue.null)
      (pending.eraseIdx pos, some (id, result))
    | none => (pending, none)

/-- One event observed by the reader task: a decoded message
(`Ok(Some(response))`), end of stream (`Ok(None)`), or a read error
(`Err(e)`, carried as the error's rendered message). -/
inductive ReadEvent where
  | msg (response : Response)
  | eof
  | readErr (e : String)

/-- The data the reader task mutates: the shared pending vector and the
sidecar state. -/
structure ReaderState where
  pending : List PendingRequest
  state : SidecarState

/-- One iteration of the reader task's loop in `Bridge::start`.  Returns the
new shared state, the deliveries made to waiters, and whether the loop
continues (`false` exactly when the branch executes `break`).
On EOF all pending requests are cancelled with "sidecar process exited" and
the state is set to Degraded unless it is already Stopped; on a read error
all pending requests are cancelled with "read error: <e>" and the state is
left untouched; on a message the response is dispatched. -/
def reader_step (rs : ReaderState) (ev : ReadEvent) :
    ReaderState × List (Nat × Except Error JValue) × Bool :=
  match ev with
  | .msg response =>
    let out := dispatch_response rs.pending response
    ({ rs with pending := out.1 }, out.2.toList, true)
  | .eof =>
    let deliveries := cancel_all_pending rs.pending "sidecar process exited"
    let newState := if rs.state ≠ SidecarState.Stopped then SidecarState.Degraded else rs.state
    ({ pending := [], state := newState }, deliveries, false)
  | .readErr e =>
    let deliveries := cancel_all_pending rs.pending ("read error: " ++ e)
    ({ pending := [], state := rs.state }, deliveries, false)

/-! ## Readiness gate (bridge.rs `wait_for_ready`, `request`, `notify`) -/

/-- The waiting loop inside `Bridge::wait_for_ready`: `events` is the
sequence of state values observed through the watch channel before the
timeout fires; exhausting it means the timeout elapsed first.  The
channel-closure branch is not modelled (the sender lives in the same
bridge, so it cannot close while a caller waits). -/
def wait_loop (timeoutMs : Nat) : List SidecarState → Except Error Unit
  | [] => Except.error (Error.Bridge (BridgeError.Timeout timeoutMs))
  | s :: rest =>
    match s with
    | .Ready => Except.ok ()
    | .Stopped =>
      Except.error (Error.Bridge (BridgeError.NotReady
        ("sidecar transitioned to " ++ SidecarState.debugStr .Stopped ++ " while waiting")))
    | .Degraded =>
      Except.error (Error.Bridge (BridgeError.NotReady
        ("sidecar transitioned to " ++ SidecarState.debugStr .Degraded ++ " while waiting")))
    | .Starting => wait_loop timeoutMs rest
    | .Restarting => wait_loop timeoutMs rest

/-- `Bridge::wait_for_ready`: immediate answer on Ready/Stopped/Degraded,
otherwise wait for a decisive state change or the timeout. -/
def wait_for_ready (current : SidecarState) (events : List SidecarState)
    (timeoutMs : Nat) : Except Error Unit :=
  match current with
  | .Ready => Except.ok ()
  | .Stopped => Except.error (Error.Bridge (BridgeError.NotReady "sidecar is Stopped"))
  | .Degraded => Except.error (Error.Bridge (BridgeError.NotReady "sidecar is Degraded"))
  | .Starting => wait_loop timeoutMs events
  | .Restarting => wait_loop timeoutMs events

/-- `Bridge::request` up to and including its readiness gate
(`self.wait_for_ready(Duration::from_secs(30)).await?`).  The remainder of
the pipeline (id assignment, send, response await) runs only when the gate
passes and is abstracted as `rest`. -/
def Bridge.request (current : SidecarState) (events : List SidecarState)
    (rest : Except Error JValue) : Except Error JValue :=
  match wait_for_ready current events 30000 with
  | Except.error e => Except.error e
  | Except.ok () => rest

/-- `Bridge::notify` up to and including its readiness gate; the enqueue of
the notification is abstracted as `rest`. -/
def Bridge.notify (current : SidecarState) (events : List SidecarState)
    (rest : Except Error Unit) : Except Error Unit :=
  match wait_for_ready current events 30000 with
  | Except.error e => Except.error e
  | Except.ok () => rest

/-! ## Request-id assignment (bridge.rs `next_id`, `start_health_check`) -/

/-- The id-relevant counters of a bridge: the shared `request_id` atomic
(initialised to 1) and, once the health task has been spawned, its private
`request_id_counter` (a fresh atomic seeded with `request_id.load()` at
spawn time — see `start_health_check`). -/
structure IdCounters where
  request_id : Nat
  health_counter : Option Nat
deriving DecidableEq

/-- Initial counters of `Bridge::new`: `AtomicU64::new(1)`, no health task. -/
def idInit : IdCounters :=
  { request_id := 1, health_counter := none }

/-- The id-assigning operations over a bridge lifetime. -/
inductive IdOp where
  | requestId
  | spawnHealth
  | healthPing
deriving DecidableEq

/-- One id-relevant step.  `requestId` is `Bridge::next_id`
(`request_id.fetch_add(1)`), used by `request()`, by `start()`'s
initial request and by `shutdown()`.  `spawnHealth` is the snapshot in
`start_health_check` (`request_id_counter = AtomicU64::new(request_id.load())`).
`healthPing` is one ping (`request_id_counter.fetch_add(1)`); it emits
nothing when no health task exists. -/
def idStep (c : IdCounters) : IdOp → IdCounters × Option Nat
  | .requestId => ({ c with request_id := c.request_id + 1 }, some c.request_id)
  | .spawnHealth => ({ c with health_counter := some c.request_id }, none)
  | .healthPing =>
    match c.health_counter with
    | some h => ({ c with health_counter := some (h + 1) }, some h)
    | none => (c, none)

/-- The ids emitted by a sequence of operations run from the initial
counters, in order. -/
def emittedIds (ops : List IdOp) : List Nat :=
  (ops.foldl
    (fun (acc : IdCounters × List Nat) op =>
      let out := idStep acc.1 op
      (out.1, acc.2 ++ out.2.toList))
    (idInit, [])).2

/-! ## Shutdown (bridge.rs `Bridge::shutdown`) -/

/-- The bridge fields `shutdown` touches: the observable state, the shared
id counter, the pending vector, and the queue of requests handed to the
writer task (in order). -/
structure BridgeModel where
  state : SidecarState
  request_id : Nat
  pending : List PendingRequest
  outbox : List Request

/-- `Bridge::shutdown`.  Returns the new bridge, the deliveries made to
pending waiters, whether the shutdown notifiers were signalled, and the
returned `Result`.  When the state is already Stopped it returns `Ok`
immediately, before signalling, cancelling or sending anything. -/
def Bridge.shutdown (b : BridgeModel) :
    BridgeModel × List (Nat × Except Error JValue) × Bool × Except Error Unit :=
  if b.state = SidecarState.Stopped then
    (b, [], false, Except.ok ())
  else
    let deliveries := cancel_all_pending b.pending "server shutting down"
    let id := b.request_id
    ({ state := SidecarState.Stopped
       request_id := b.request_id + 1
       pending := []
       outbox := b.outbox ++ [Request.new id "shutdown" none] },
     deliveries, true, Except.ok ())

/-! ## Framed message reading (jsonrpc.rs `read_message`, `read_content_length`) -/

/-- The Content-Length header prefix matched by `read_content_length`. -/
def clHeaderPfx : List Char := "Content-Length: ".data

/-- The body of the header loop of `read_content_length` for one complete
line (newline included, as `read_line` leaves it).  `Sum.inl (Except.ok n)`
means the blank separator was reached with a recorded Content-Length `n`;
`Sum.inl (Except.error e)` is an error (blank separator without a value, or
an unparseable value); `Sum.inr cl` means the loop continues with the new
accumulator. -/
def headerLineStep (line : List Char) (content_length : Option Nat) :
    Except ProtocolError Nat ⊕ Option Nat :=
  let trimmed := trimChars line
  if trimmed = [] then
    match content_length with
    | some n => Sum.inl (Except.ok n)
    | none => Sum.inl (Except.error ProtocolError.MissingContentLength)
  else
    match stripPfxChars trimmed clHeaderPfx with
    | some v =>
      match parseUsize v with
      | some n => Sum.inr (some n)
      | none =>
        Sum.inl (Except.error (ProtocolError.InvalidJsonRpc
          ("invalid Content-Length: " ++ String.mk v)))
    | none => Sum.inr content_length

/-- The header loop of `read_content_length` with `read_line` inlined:
`cur` holds the characters of the current line read so far, in reverse.
When the stream ends with `cur` empty, `read_line` reads 0 bytes and the
function returns `Ok none` (EOF); a final partial line is processed like
any other, after which the next read is the 0-byte EOF read. -/
def read_content_length_go (cur : List Char) (s : List Char) (content_length : Option Nat) :
    Except ProtocolError (Option (Nat × List Char)) :=
  match s with
  | [] =>
    if cur.isEmpty then Except.ok none
    else
      match headerLineStep cur.reverse content_length with
      | Sum.inl (Except.ok n) => Except.ok (some (n, []))
      | Sum.inl (Except.error e) => Except.error e
      | Sum.inr _ => Except.ok none
  | c :: rest =>
    if c = '\n' then
      match headerLineStep (cur.reverse ++ ['\n']) content_length with
      | Sum.inl (Except.ok n) => Except.ok (some (n, rest))
      | Sum.inl (Except.error e) => Except.error e
      | Sum.inr cl => read_content_length_go [] rest cl
    else read_content_length_go (c :: cur) rest content_length

/-- `read_content_length` from jsonrpc.rs: read header lines until the blank
separator, accumulating the last Content-Length value.  `Ok none` is EOF
(`read_line` returned 0 bytes); a header value that fails to parse yields
`InvalidJsonRpc("invalid Content-Length: <value>")`; a blank line without a
recorded value yields `MissingContentLength`.  On success the remaining
stream is returned alongside the length. -/
def read_content_length (s : List Char) (content_length : Option Nat) :
    Except ProtocolError (Option (Nat × List Char)) :=
  read_content_length_go [] s content_length

/-- `read_message` from jsonrpc.rs, parameterised by the body parser
(serde_json, an external crate): read the headers, then the body.  When
fewer than Content-Length bytes remain, `read_exact` reports UnexpectedEof
and the function returns `Ok none` (end of stream); a body parse failure
yields `JsonParse`. -/
def read_message (parse : String → Except String Response) (s : List Char) :
    Except ProtocolError (Option Response) :=
  match read_content_length s none with
  | Except.error e => Except.error e
  | Except.ok none => Except.ok none
  | Except.ok (some (content_length, rest)) =>
    if rest.length < content_length then Except.ok none
    else
      let body := rest.take content_length
      match parse (String.mk body) with
      | Except.ok response => Except.ok (some response)
      | Except.error e => Except.error (ProtocolError.JsonParse e)

/-- Builds a framed header section: each header line followed by CRLF, then
the blank separator line, then the body bytes. -/
def headerBlock (hs : List (List Char)) (body : List Char) : List Char :=
  hs.foldr (fun h acc => h ++ '\r' :: '\n' :: acc) ('\r' :: '\n' :: body)

/-- The continuation of the header loop after one complete line: a recorded
length returns together with the rest of the stream, an error propagates,
and otherwise the loop continues on the rest with the updated accumulator. -/
def afterHeaderLine (rest : List Char) :
    Except ProtocolError Nat ⊕ Option Nat → Except ProtocolError (Option (Nat × List Char))
  | Sum.inl (Except.ok n) => Except.ok (some (n, rest))
  | Sum.inl (Except.error e) => Except.error e
  | Sum.inr cl => read_content_length_go [] rest cl

/-- The tagged build-tool output of spec scenario S6, instantiated with the
tool's literal sentinel markers and key names (the spec writes the tool name
as `<tool>`/`X` and the version key as `VERSION`; the tagged-output protocol
of section 4.2 fixes them to `KOTLIN-ANALYZER` and `KOTLIN_VERSION`). -/
def scenarioOutput : String :=
  "---KOTLIN-ANALYZER-START---\nSOURCE_ROOT=/p/src\nCLASSPATH=/l/a.jar\nCLASSPATH=/l/b.jar\nCOMPILER_FLAG=-Xflag\nKOTLIN_VERSION=1.2.3\n---KOTLIN-ANALYZER-END---\n"

/-- The scenario S6 configuration: default except for the compiler flags. -/
def scenarioConfig : Config :=
  { Config.default with compiler_flags := ["-Xflag", "-Xother"] }

/-- A body parser that never succeeds; the header-handling counterexamples
do not reach it. -/
def parseNever : String → Except String Response :=
  fun _ => Except.error "unused"

/-- A concrete response used to exercise the body-parsing path. -/
def respOk : Response :=
  { jsonrpc := "2.0", id := some 1, result := some (JValue.str "r"), error := none }

/-- A concrete body parser accepting exactly the body "ok". -/
def parseOnlyOk : String → Except String Response :=
  fun s => if s = "ok" then Except.ok respOk else Except.error "bad json"

/-! ## Helper lemmas -/

theorem findIdxQ_none {α : Type} (p : α → Bool) :
    ∀ (l : List α) (i : Nat), (∀ x ∈ l, p x = false) → List.findIdx? p l i = none := by
  intro l
  induction l with
  | nil => intro i _; rfl
  | cons a l ih =>
    intro i h
    have ha := h a (by simp)
    simp only [List.findIdx?, ha, Bool.false_eq_true, if_false]
    exact ih (i + 1) (fun x hx => h x (by simp [hx]))

theorem findIdxQ_append_first {α : Type} (p : α → Bool) :
    ∀ (pre : List α) (x : α) (post : List α) (i : Nat),
      (∀ y ∈ pre, p y = false) → p x = true →
      List.findIdx? p (pre ++ x :: post) i = some (i + pre.length) := by
  intro pre
  induction pre with
  | nil => intro x post i _ hx; simp [List.findIdx?, hx]
  | cons a pre ih =>
    intro x post i h hx
    have ha := h a (by simp)
    simp only [List.cons_append, List.findIdx?, ha, Bool.false_eq_true, if_false, List.append_eq]
    rw [ih x post (i + 1) (fun y hy => h y (by simp [hy])) hx]
    have harith : i + 1 + pre.length = i + (a :: pre).length := by
      simp [List.length_cons]
      omega
    rw [harith]

theorem eraseIdx_append_length {α : Type} (l : List α) (x : α) (l₂ : List α) :
    (l ++ x :: l₂).eraseIdx l.length = l ++ l₂ := by
  induction l with
  | nil => rfl
  | cons a l ih =>
    show a :: ((l ++ x :: l₂).eraseIdx l.length) = a :: (l ++ l₂)
    exact congrArg _ ih

theorem mergeConfigFlags_spec (cfgs : List String) : ∀ flags : List String,
    flags <+: mergeConfigFlags flags cfgs
    ∧ List.Sublist ((mergeConfigFlags flags cfgs).drop flags.length) cfgs
    ∧ ((mergeConfigFlags flags cfgs).drop flags.length).Nodup
    ∧ ∀ f ∈ (mergeConfigFlags flags cfgs).drop flags.length, f ∉ flags := by
  induction cfgs with
  | nil =>
    intro flags
    simp [mergeConfigFlags]
  | cons g rest ih =>
    intro flags
    by_cases hg : g ∈ flags
    · have hstep : mergeConfigFlags flags (g :: rest) = mergeConfigFlags flags rest := by
        simp [mergeConfigFlags, hg]
      rw [hstep]
      obtain ⟨h1, h2, h3, h4⟩ := ih flags
      exact ⟨h1, h2.cons g, h3, h4⟩
    · have hstep : mergeConfigFlags flags (g :: rest) = mergeConfigFlags (flags ++ [g]) rest := by
        simp [mergeConfigFlags, hg]
      rw [hstep]
      obtain ⟨h1, h2, h3, h4⟩ := ih (flags ++ [g])
      obtain ⟨T, hT⟩ := h1
      have hM : mergeConfigFlags (flags ++ [g]) rest = flags ++ (g :: T) := by
        rw [← hT]
        simp
      have hdropg : (mergeConfigFlags (flags ++ [g]) rest).drop (flags ++ [g]).length = T := by
        rw [← hT]
        exact List.drop_left _ _
    -- the tail after `flags` is the appended flag followed by the tail after `flags ++ [g]`
      have hdrop : (mergeConfigFlags (flags ++ [g]) rest).drop flags.length = g :: T := by
        rw [hM]
        exact List.drop_left flags (g :: T)
      rw [hdrop]
      rw [hdropg] at h2 h3 h4
      refine ⟨?_, ?_, ?_, ?_⟩
      · exact ⟨g :: T, by rw [hM]⟩
      · exact h2.cons₂ g
      · refine List.nodup_cons.mpr ⟨?_, h3⟩
        intro hgT
        exact h4 g hgT (by simp)
      · intro f hf
        rcases List.mem_cons.mp hf with h | h
        · rw [h]; exact hg
        · intro hff
          exact h4 f h (by simp [hff])

theorem mergeConfigFlags_mem (cfgs : List String) : ∀ (flags : List String) (f : String),
    f ∈ mergeConfigFlags flags cfgs ↔ f ∈ flags ∨ f ∈ cfgs := by
  induction cfgs with
  | nil =>
    intro flags f
    simp [mergeConfigFlags]
  | cons g rest ih =>
    intro flags f
    by_cases hg : g ∈ flags
    · have hstep : mergeConfigFlags flags (g :: rest) = mergeConfigFlags flags rest := by
        simp [mergeConfigFlags, hg]
      rw [hstep, ih flags f]
      constructor
      · rintro (h | h)
        · exact Or.inl h
        · exact Or.inr (List.mem_cons_of_mem g h)
      · rintro (h | h)
        · exact Or.inl h
        · rcases List.mem_cons.mp h with rfl | h2
          · exact Or.inl hg
          · exact Or.inr h2
    · have hstep : mergeConfigFlags flags (g :: rest) = mergeConfigFlags (flags ++ [g]) rest := by
        simp [mergeConfigFlags, hg]
      rw [hstep, ih (flags ++ [g]) f]
      simp only [List.mem_append, List.mem_singleton, List.mem_cons]
      tauto

theorem parse_flags_eq_merge (output root : String) (config : Config) :
    (parse_gradle_output output root config).compiler_flags =
      mergeConfigFlags
        ((parse_gradle_output output root { config with compiler_flags := [] }).compiler_flags)
        config.compiler_flags := rfl

theorem wait_loop_append (t : Nat) (pre evs : List SidecarState)
    (hpre : ∀ e ∈ pre, e = SidecarState.Starting ∨ e = SidecarState.Restarting) :
    wait_loop t (pre ++ evs) = wait_loop t evs := by
  induction pre with
  | nil => rfl
  | cons a pre ih =>
    have hrest : ∀ e ∈ pre, e = SidecarState.Starting ∨ e = SidecarState.Restarting :=
      fun e he => hpre e (by simp [he])
    rcases hpre a (by simp) with h | h <;> subst h <;>
      simpa [wait_loop] using ih hrest

theorem getAssoc_insertAssoc (l : List (String × Document)) (k : String) (v : Document) :
    getAssoc (insertAssoc l k v) k = some v := by
  induction l with
  | nil => simp [insertAssoc, getAssoc]
  | cons kv rest ih =>
    by_cases h : kv.1 = k
    · simp [insertAssoc, getAssoc, h]
    · simp [insertAssoc, getAssoc, h, ih]

theorem dropWhile_eq_self_of_length {α : Type} (p : α → Bool) :
    ∀ l : List α, (l.dropWhile p).length = l.length → l.dropWhile p = l := by
  intro l
  induction l with
  | nil => intro _; rfl
  | cons c cs ih =>
    intro h
    by_cases hp : p c
    · exfalso
      rw [List.dropWhile_cons, if_pos hp] at h
      have hle := (List.dropWhile_sublist (l := cs) p).length_le
      simp [List.length_cons] at h
      omega
    · rw [List.dropWhile_cons, if_neg hp]

theorem trim_parts (l : List Char) (h : trimChars l = l) :
    l.dropWhile isRustWhitespace = l ∧ l.reverse.dropWhile isRustWhitespace = l.reverse := by
  have hlen1 : (trimChars l).length ≤ (l.dropWhile isRustWhitespace).length := by
    simp only [trimChars, List.length_reverse]
    have := (List.dropWhile_sublist (l := (l.dropWhile isRustWhitespace).reverse)
      isRustWhitespace).length_le
    simpa using this
  have hlen2 : (l.dropWhile isRustWhitespace).length ≤ l.length :=
    (List.dropWhile_sublist _).length_le
  rw [h] at hlen1
  have hd : l.dropWhile isRustWhitespace = l :=
    dropWhile_eq_self_of_length _ l (by omega)
  refine ⟨hd, ?_⟩
  have htrim2 : (l.reverse.dropWhile isRustWhitespace).reverse = l := by
    calc (l.reverse.dropWhile isRustWhitespace).reverse
        = ((l.dropWhile isRustWhitespace).reverse.dropWhile isRustWhitespace).reverse := by
          rw [hd]
      _ = l := h
  calc l.reverse.dropWhile isRustWhitespace
      = ((l.reverse.dropWhile isRustWhitespace).reverse).reverse := by
        rw [List.reverse_reverse]
    _ = l.reverse := by rw [htrim2]

theorem head_not_ws (c : Char) (cs : List Char)
    (hd : (c :: cs).dropWhile isRustWhitespace = c :: cs) : isRustWhitespace c = false := by
  by_contra hc
  have hc' : isRustWhitespace c = true := by
    cases h : isRustWhitespace c
    · exact absurd h hc
    · rfl
  rw [List.dropWhile_cons, if_pos hc'] at hd
  have := (List.dropWhile_sublist (l := cs) isRustWhitespace).length_le
  have hlen := congrArg List.length hd
  simp [List.length_cons] at hlen
  omega

theorem dropWhile_ws_ws (x : List Char) :
    List.dropWhile isRustWhitespace ('\n' :: '\r' :: x) = List.dropWhile isRustWhitespace x := by
  simp [List.dropWhile_cons, isRustWhitespace]

theorem trim_append_crlf (l : List Char) (hne : l ≠ []) (h : trimChars l = l) :
    trimChars (l ++ ['\r', '\n']) = l := by
  obtain ⟨hd, hr⟩ := trim_parts l h
  obtain ⟨c, cs, rfl⟩ : ∃ c cs, l = c :: cs := by
    cases l with
    | nil => exact absurd rfl hne
    | cons c cs => exact ⟨c, cs, rfl⟩
  have hc : isRustWhitespace c = false := head_not_ws c cs hd
  have e1 : List.dropWhile isRustWhitespace ((c :: cs) ++ ['\r', '\n'])
      = (c :: cs) ++ ['\r', '\n'] := by
    simp [List.dropWhile, hc]
  have e2 : ((c :: cs) ++ ['\r', '\n']).reverse = '\n' :: '\r' :: (c :: cs).reverse := by
    simp
  unfold trimChars
  rw [e1, e2, dropWhile_ws_ws, hr, List.reverse_reverse]

theorem stripPfxChars_append (p r : List Char) : stripPfxChars (p ++ r) p = some r := by
  induction p with
  | nil => cases r <;> rfl
  | cons a p ih => simp [stripPfxChars, ih]

theorem rcl_go_newline (cur rest : List Char) (cl : Option Nat) :
    read_content_length_go cur ('\n' :: rest) cl =
      afterHeaderLine rest (headerLineStep (cur.reverse ++ ['\n']) cl) := by
  simp only [read_content_length_go, if_pos rfl]
  generalize headerLineStep (cur.reverse ++ ['\n']) cl = out
  cases out with
  | inl e => cases e <;> rfl
  | inr cl2 => rfl

theorem rcl_go_line (l : List Char) : ∀ (cur rest : List Char) (cl : Option Nat),
    '\n' ∉ l →
    read_content_length_go cur (l ++ '\n' :: rest) cl =
      afterHeaderLine rest (headerLineStep (cur.reverse ++ (l ++ ['\n'])) cl) := by
  induction l with
  | nil =>
    intro cur rest cl _
    simpa using rcl_go_newline cur rest cl
  | cons a l ih =>
    intro cur rest cl hl
    have ha : ¬(a = '\n') := fun h => hl (by simp [h])
    have hl' : '\n' ∉ l := fun h => hl (by simp [h])
    have hstep : read_content_length_go cur ((a :: l) ++ '\n' :: rest) cl
        = read_content_length_go (a :: cur) (l ++ '\n' :: rest) cl := by
      simp only [List.cons_append, read_content_length_go, if_neg ha, List.append_eq]
    rw [hstep, ih (a :: cur) rest cl hl']
    have harg : (a :: cur).reverse ++ (l ++ ['\n']) = cur.reverse ++ ((a :: l) ++ ['\n']) := by
      simp
    rw [harg]

theorem rcl_skip_headers (hs : List (List Char)) (tail : List Char) (cl : Option Nat)
    (hgood : ∀ h ∈ hs,
      h ≠ [] ∧ '\n' ∉ h ∧ trimChars h = h ∧ stripPfxChars h clHeaderPfx = none) :
    read_content_length_go [] (hs.foldr (fun h acc => h ++ '\r' :: '\n' :: acc) tail) cl
      = read_content_length_go [] tail cl := by
  induction hs with
  | nil => rfl
  | cons h hs ih =>
    obtain ⟨hne, hnl, htrim, hnocl⟩ := hgood h (by simp)
    have hrest : ∀ g ∈ hs,
        g ≠ [] ∧ '\n' ∉ g ∧ trimChars g = g ∧ stripPfxChars g clHeaderPfx = none :=
      fun g hg => hgood g (by simp [hg])
    have hnl' : '\n' ∉ h ++ ['\r'] := by
      intro hmem
      rcases List.mem_append.mp hmem with hm | hm
      · exact hnl hm
      · simp at hm
    have hline := rcl_go_line (h ++ ['\r']) []
      (hs.foldr (fun g acc => g ++ '\r' :: '\n' :: acc) tail) cl hnl'
    have hshape : (h ++ ['\r']) ++ '\n' :: hs.foldr (fun g acc => g ++ '\r' :: '\n' :: acc) tail
        = h ++ '\r' :: '\n' :: hs.foldr (fun g acc => g ++ '\r' :: '\n' :: acc) tail := by
      simp
    rw [List.foldr_cons, ← hshape, hline]
    have hargs : (([] : List Char)).reverse ++ ((h ++ ['\r']) ++ ['\n']) = h ++ ['\r', '\n'] := by
      simp
    rw [hargs]
    have hstep : headerLineStep (h ++ ['\r', '\n']) cl = Sum.inr cl := by
      simp only [headerLineStep, trim_append_crlf h hne htrim, if_neg hne, hnocl]
    rw [hstep]
    exact ih hrest

theorem rcl_go_blank (body : List Char) (cl : Option Nat) :
    read_content_length_go [] ('\r' :: '\n' :: body) cl =
      match cl with
      | some n => Except.ok (some (n, body))
      | none => Except.error ProtocolError.MissingContentLength := by
  cases cl <;> rfl

theorem rcl_clline (v rest : List Char) (cl : Option Nat)
    (hv : '\n' ∉ v) (htrim : trimChars (clHeaderPfx ++ v) = clHeaderPfx ++ v) :
    read_content_length_go [] ((clHeaderPfx ++ v) ++ '\r' :: '\n' :: rest) cl =
      match parseUsize v with
      | some n => read_content_length_go [] rest (some n)
      | none =>
        Except.error (ProtocolError.InvalidJsonRpc ("invalid Content-Length: " ++ String.mk v)) := by
  have hnl : '\n' ∉ (clHeaderPfx ++ v) ++ ['\r'] := by
    intro hmem
    rcases List.mem_append.mp hmem with hm | hm
    · rcases List.mem_append.mp hm with hm2 | hm2
      · revert hm2
        decide
      · exact hv hm2
    · simp at hm
  have hshape : ((clHeaderPfx ++ v) ++ ['\r']) ++ '\n' :: rest
      = (clHeaderPfx ++ v) ++ '\r' :: '\n' :: rest := by
    simp
  rw [← hshape, rcl_go_line ((clHeaderPfx ++ v) ++ ['\r']) [] rest cl hnl]
  have hargs : (([] : List Char)).reverse ++ (((clHeaderPfx ++ v) ++ ['\r']) ++ ['\n'])
      = (clHeaderPfx ++ v) ++ ['\r', '\n'] := by
    simp
  rw [hargs]
  have hne : clHeaderPfx ++ v ≠ [] := by
    intro h
    have := congrArg List.length h
    simp [clHeaderPfx] at this
  have hstep : headerLineStep ((clHeaderPfx ++ v) ++ ['\r', '\n']) cl =
      match parseUsize v with
      | some n => Sum.inr (some n)
      | none =>
        Sum.inl (Except.error (ProtocolError.InvalidJsonRpc
          ("invalid Content-Length: " ++ String.mk v))) := by
    simp only [headerLineStep, trim_append_crlf (clHeaderPfx ++ v) hne htrim, if_neg hne,
      stripPfxChars_append]
  rw [hstep]
  cases hp : parseUsize v <;> simp [afterHeaderLine]

theorem rcl_clline_some (v rest : List Char) (cl : Option Nat) (n : Nat)
    (hv : '\n' ∉ v) (htrim : trimChars (clHeaderPfx ++ v) = clHeaderPfx ++ v)
    (hp : parseUsize v = some n) :
    read_content_length_go [] ((clHeaderPfx ++ v) ++ '\r' :: '\n' :: rest) cl =
      read_content_length_go [] rest (some n) := by
  rw [rcl_clline v rest cl hv htrim, hp]

theorem rcl_clline_none (v rest : List Char) (cl : Option Nat)
    (hv : '\n' ∉ v) (htrim : trimChars (clHeaderPfx ++ v) = clHeaderPfx ++ v)
    (hp : parseUsize v = none) :
    read_content_length_go [] ((clHeaderPfx ++ v) ++ '\r' :: '\n' :: rest) cl =
      Except.error (ProtocolError.InvalidJsonRpc ("invalid Content-Length: " ++ String.mk v)) := by
  rw [rcl_clline v rest cl hv htrim, hp]

/-! ## Claims -/

/-- Claim C1 (code bug in `Bridge::start_health_check`): the claim states
that every id assigned over a bridge lifetime — by `next_id` and by the
health-check pings — is unique and that K id-needing calls emit exactly
the ids 1..K.  The code seeds the health task with a *copy* of the shared
counter (`AtomicU64::new(request_id.load())`), so the trace "start() assigns
id 1 to its initial request; the health task is spawned with snapshot 2; one
ping emits id 2; the next request() also emits id 2" produces the duplicate
emission list [1, 2, 2]. -/
theorem health_ping_id_collision :
    emittedIds [IdOp.requestId, IdOp.spawnHealth, IdOp.healthPing, IdOp.requestId] = [1, 2, 2]
    ∧ ¬ (emittedIds [IdOp.requestId, IdOp.spawnHealth, IdOp.healthPing, IdOp.requestId]).Nodup := by
  decide

/-- Claim C2, counterexample: a read error (unlike EOF) does not transition
the state to Degraded — with one pending request and state Ready, the
read-error branch of the reader loop cancels the waiter but leaves the
state at Ready. -/
theorem read_error_state_cex :
    (reader_step { pending := [{ id := 7 }], state := SidecarState.Ready }
        (ReadEvent.readErr "connection reset")).1.state = SidecarState.Ready
    ∧ SidecarState.Ready ≠ SidecarState.Degraded
    ∧ SidecarState.Ready ≠ SidecarState.Stopped := by
  exact ⟨rfl, by decide, by decide⟩

/-- Claim C2 as amended: on EOF every pending waiter receives
`Crashed("sidecar process exited")`, the pending map is emptied, and the
state becomes Degraded unless it is already Stopped; on a read error every
pending waiter receives `Crashed("read error: <e>")` and the pending map is
emptied, but the state is left unchanged. -/
theorem reader_crash_handling (rs : ReaderState) (e : String) :
    (reader_step rs ReadEvent.eof).1.pending = []
    ∧ (reader_step rs ReadEvent.eof).1.state
        = (if rs.state = SidecarState.Stopped then SidecarState.Stopped else SidecarState.Degraded)
    ∧ (reader_step rs ReadEvent.eof).2.1
        = rs.pending.map (fun p =>
            (p.id, Except.error (Error.Bridge (BridgeError.Crashed "sidecar process exited"))))
    ∧ (reader_step rs (ReadEvent.readErr e)).1.pending = []
    ∧ (reader_step rs (ReadEvent.readErr e)).1.state = rs.state
    ∧ (reader_step rs (ReadEvent.readErr e)).2.1
        = rs.pending.map (fun p =>
            (p.id, Except.error (Error.Bridge (BridgeError.Crashed ("read error: " ++ e))))) := by
  refine ⟨rfl, ?_, rfl, rfl, rfl, rfl⟩
  by_cases hst : rs.state = SidecarState.Stopped
  · simp [reader_step, hst]
  · simp [reader_step, hst]

/-- Claim C3, counterexample: the error delivered for a response carrying
an error object is `MalformedResponse("error <code>: <message>")` — with
the `error ` prefix — not `MalformedResponse("<code>: <message>")` as the
claim's literal format states. -/
theorem dispatch_error_format_cex :
    dispatch_response [{ id := 1 }]
        { jsonrpc := "2.0", id := some 1, result := none,
          error := some { code := -32601, message := "method not found", data := none } }
      = ([], some (1, Except.error (Error.Bridge (BridgeError.MalformedResponse
          "error -32601: method not found"))))
    ∧ "error -32601: method not found" ≠ "-32601: method not found" := by
  exact ⟨rfl, by decide⟩

/-- Claim C3 as amended: a response without id consumes no pending entry;
a response whose id matches no entry consumes none; a response whose id
first matches the entry after a non-matching prefix removes exactly that
entry and delivers `MalformedResponse("error <code>: <message>")` when an
error object is present, otherwise the result field (null when absent). -/
theorem dispatch_response_spec (pending : List PendingRequest) (response : Response) :
    (response.id = none → dispatch_response pending response = (pending, none))
    ∧ (∀ id, response.id = some id → (∀ p ∈ pending, p.id ≠ id) →
        dispatch_response pending response = (pending, none))
    ∧ (∀ id pre post, response.id = some id → (∀ p ∈ pre, p.id ≠ id) →
        dispatch_response (pre ++ { id := id } :: post) response
          = (pre ++ post,
             some (id,
               match response.error with
               | some e =>
                 Except.error (Error.Bridge (BridgeError.MalformedResponse
                   ("error " ++ toString e.code ++ ": " ++ e.message)))
               | none => Except.ok (response.result.getD JValue.null)))) := by
  refine ⟨?_, ?_, ?_⟩
  · intro h
    simp [dispatch_response, h]
  · intro id h hnone
    have hfind : List.findIdx? (fun p => p.id == id) pending 0 = none := by
      apply findIdxQ_none
      intro x hx
      simp [hnone x hx]
    simp [dispatch_response, h, hfind]
  · intro id pre post h hpre
    have hfind : List.findIdx? (fun p => p.id == id) (pre ++ { id := id } :: post) 0
        = some (0 + pre.length) := by
      apply findIdxQ_append_first
      · intro y hy
        simp [hpre y hy]
      · simp
    simp only [dispatch_response, h]
    rw [hfind]
    simp only [Nat.zero_add]
    rw [eraseIdx_append_length]

/-- Witness for the amended C3 theorem at a concrete pending list and a
concrete successful response. -/
theorem dispatch_response_spec_witness :
    dispatch_response [{ id := 3 }, { id := 5 }]
        { jsonrpc := "2.0", id := some 5, result := some (JValue.str "ok"), error := none }
      = ([{ id := 3 }], some (5, Except.ok (JValue.str "ok"))) := by
  have h := (dispatch_response_spec []
      { jsonrpc := "2.0", id := some 5, result := some (JValue.str "ok"), error := none }).2.2
      5 [{ id := 3 }] [] rfl (by decide)
  exact h

/-- Claim C4: `request()` and `notify()` fail immediately with NotReady in
Stopped or Degraded; in Starting or Restarting they wait through
non-decisive state changes, proceed when the state becomes Ready, fail with
NotReady when it becomes Stopped or Degraded, and fail with
`Timeout(30000)` when the 30 s wait timeout elapses first (the event list
is the sequence of state changes observed before the timeout fires). -/
theorem request_gate_spec (c : SidecarState) (pre post : List SidecarState)
    (rv : Except Error JValue) (ru : Except Error Unit)
    (hc : c = SidecarState.Starting ∨ c = SidecarState.Restarting)
    (hpre : ∀ e ∈ pre, e = SidecarState.Starting ∨ e = SidecarState.Restarting) :
    (Bridge.request SidecarState.Stopped (pre ++ post) rv
        = Except.error (Error.Bridge (BridgeError.NotReady "sidecar is Stopped")))
    ∧ (Bridge.request SidecarState.Degraded (pre ++ post) rv
        = Except.error (Error.Bridge (BridgeError.NotReady "sidecar is Degraded")))
    ∧ (Bridge.notify SidecarState.Stopped (pre ++ post) ru
        = Except.error (Error.Bridge (BridgeError.NotReady "sidecar is Stopped")))
    ∧ (Bridge.notify SidecarState.Degraded (pre ++ post) ru
        = Except.error (Error.Bridge (BridgeError.NotReady "sidecar is Degraded")))
    ∧ (Bridge.request c (pre ++ SidecarState.Ready :: post) rv = rv)
    ∧ (Bridge.notify c (pre ++ SidecarState.Ready :: post) ru = ru)
    ∧ (Bridge.request c (pre ++ SidecarState.Stopped :: post) rv
        = Except.error (Error.Bridge
            (BridgeError.NotReady "sidecar transitioned to Stopped while waiting")))
    ∧ (Bridge.request c (pre ++ SidecarState.Degraded :: post) rv
        = Except.error (Error.Bridge
            (BridgeError.NotReady "sidecar transitioned to Degraded while waiting")))
    ∧ (Bridge.notify c (pre ++ SidecarState.Stopped :: post) ru
        = Except.error (Error.Bridge
            (BridgeError.NotReady "sidecar transitioned to Stopped while waiting")))
    ∧ (Bridge.notify c (pre ++ SidecarState.Degraded :: post) ru
        = Except.error (Error.Bridge
            (BridgeError.NotReady "sidecar transitioned to Degraded while waiting")))
    ∧ (Bridge.request c pre rv = Except.error (Error.Bridge (BridgeError.Timeout 30000)))
    ∧ (Bridge.notify c pre ru = Except.error (Error.Bridge (BridgeError.Timeout 30000))) := by
  have hgate : ∀ evs : List SidecarState, wait_for_ready c evs 30000 = wait_loop 30000 evs := by
    rcases hc with h | h <;> subst h <;> intro evs <;> rfl
  have hskip : ∀ evs : List SidecarState,
      wait_loop 30000 (pre ++ evs) = wait_loop 30000 evs :=
    fun evs => wait_loop_append 30000 pre evs hpre
  have hnil : wait_loop 30000 pre = Except.error (Error.Bridge (BridgeError.Timeout 30000)) := by
    have h0 := hskip []
    rw [List.append_nil] at h0
    rw [h0]
    rfl
  refine ⟨rfl, rfl, rfl, rfl, ?_, ?_, ?_, ?_, ?_, ?_, ?_, ?_⟩
  · rw [Bridge.request, hgate, hskip]
    rfl
  · rw [Bridge.notify, hgate, hskip]
    rfl
  · rw [Bridge.request, hgate, hskip]
    rfl
  · rw [Bridge.request, hgate, hskip]
    rfl
  · rw [Bridge.notify, hgate, hskip]
    rfl
  · rw [Bridge.notify, hgate, hskip]
    rfl
  · rw [Bridge.request, hgate, hnil]
  · rw [Bridge.notify, hgate, hnil]

/-- Witness for C4: a request issued in Starting that observes one more
Restarting value and then Ready proceeds and returns the pipeline's value. -/
theorem request_gate_spec_witness :
    Bridge.request SidecarState.Starting [SidecarState.Restarting, SidecarState.Ready]
      (Except.ok JValue.null) = Except.ok JValue.null := by
  have h := request_gate_spec SidecarState.Starting [SidecarState.Restarting] []
    (Except.ok JValue.null) (Except.ok ()) (Or.inl rfl) (by decide)
  exact h.2.2.2.2.1

/-- Claim C5, counterexample: `change` with a version lower than the stored
one is not ignored — after opening at version 5, a change to version 3
replaces both the text and the version, and the store is visibly changed. -/
theorem change_lower_version_cex :
    ((3 : Int) < 5)
    ∧ (((DocumentStore.empty.openDoc "file:///a.kt" "a" 5).change "file:///a.kt" "b" 3).1.get
        "file:///a.kt" = some { text := "b", version := 3 })
    ∧ (((DocumentStore.empty.openDoc "file:///a.kt" "a" 5).change "file:///a.kt" "b" 3).1
        ≠ DocumentStore.empty.openDoc "file:///a.kt" "a" 5) := by
  exact ⟨by decide, rfl, by decide⟩

/-- Claim C5 as amended: `change(uri, text, v)` with the URI present
unconditionally replaces the stored text and version — even when `v` is
lower than the stored version — and returns true; with the URI absent it
leaves the store unchanged and returns false. -/
theorem change_overwrites_spec (st : DocumentStore) (uri text : String) (version : Int) :
    ((st.get uri).isSome = true →
      (st.change uri text version).1.get uri = some { text := text, version := version }
      ∧ (st.change uri text version).2 = true)
    ∧ ((st.get uri) = none → st.change uri text version = (st, false)) := by
  constructor
  · intro h
    obtain ⟨d, hd⟩ : ∃ d, getAssoc st.documents uri = some d := by
      cases hg : getAssoc st.documents uri with
      | none =>
        simp only [DocumentStore.get, hg, Option.isSome_none] at h
        cases h
      | some d => exact ⟨d, rfl⟩
    constructor
    · simp [DocumentStore.change, hd, DocumentStore.get, getAssoc_insertAssoc]
    · simp [DocumentStore.change, hd]
  · intro h
    simp only [DocumentStore.get] at h
    simp [DocumentStore.change, h]

/-- Witness for the amended C5 theorem: a concrete store where the version
goes from 7 down to 2. -/
theorem change_overwrites_spec_witness :
    ((DocumentStore.empty.openDoc "file:///w.kt" "x" 7).change "file:///w.kt" "y" 2).1.get
      "file:///w.kt" = some { text := "y", version := 2 } := by
  have h := change_overwrites_spec (DocumentStore.empty.openDoc "file:///w.kt" "x" 7)
    "file:///w.kt" "y" 2
  exact (h.1 (by rfl)).1

/-- Claim C6, counterexample: a body shorter than Content-Length yields
`Ok None` (end of stream), not an UnexpectedEof error — no such error
variant exists in the code — and an unparseable Content-Length value yields
`InvalidJsonRpc("invalid Content-Length: <value>")`, not a variant named
InvalidContentLength, which also does not exist. -/
theorem read_message_claim_cex :
    read_message parseNever "Content-Length: 5\r\n\r\nab".data = Except.ok none
    ∧ read_message parseNever "Content-Length: x\r\n\r\n".data
        = Except.error (ProtocolError.InvalidJsonRpc "invalid Content-Length: x") := by
  exact ⟨rfl, rfl⟩

/-- Claim C6 as amended: for a framed stream made of ignorable header lines,
the read fails with `MissingContentLength` when the headers end without a
Content-Length header; with a Content-Length header whose value does not
parse as a non-negative integer it fails with
`InvalidJsonRpc("invalid Content-Length: <value>")`; with a valid value N it
returns end-of-stream (`Ok none`) when fewer than N body bytes remain, and
otherwise hands exactly N bytes to the body parser, failing with `JsonParse`
when the parser fails. -/
theorem read_message_spec (parse : String → Except String Response)
    (hs : List (List Char)) (v : List Char) (n : Nat) (body : List Char)
    (hgood : ∀ h ∈ hs,
      h ≠ [] ∧ '\n' ∉ h ∧ trimChars h = h ∧ stripPfxChars h clHeaderPfx = none)
    (hv : '\n' ∉ v) (htrim : trimChars (clHeaderPfx ++ v) = clHeaderPfx ++ v) :
    (read_message parse (headerBlock hs body) = Except.error ProtocolError.MissingContentLength)
    ∧ (parseUsize v = none →
        read_message parse (headerBlock (hs ++ [clHeaderPfx ++ v]) body)
          = Except.error (ProtocolError.InvalidJsonRpc ("invalid Content-Length: " ++ String.mk v)))
    ∧ (parseUsize v = some n → body.length < n →
        read_message parse (headerBlock (hs ++ [clHeaderPfx ++ v]) body) = Except.ok none)
    ∧ (parseUsize v = some n → n ≤ body.length →
        read_message parse (headerBlock (hs ++ [clHeaderPfx ++ v]) body)
          = match parse (String.mk (body.take n)) with
            | Except.ok r => Except.ok (some r)
            | Except.error e => Except.error (ProtocolError.JsonParse e)) := by
  have hblock2 : headerBlock (hs ++ [clHeaderPfx ++ v]) body
      = hs.foldr (fun h acc => h ++ '\r' :: '\n' :: acc)
          ((clHeaderPfx ++ v) ++ '\r' :: '\n' :: ('\r' :: '\n' :: body)) := by
    unfold headerBlock
    rw [List.foldr_append]
    rfl
  refine ⟨?_, ?_, ?_, ?_⟩
  · unfold read_message read_content_length headerBlock
    rw [rcl_skip_headers hs _ none hgood, rcl_go_blank]
  · intro hnone
    unfold read_message read_content_length
    rw [hblock2, rcl_skip_headers hs _ none hgood, rcl_clline_none v _ none hv htrim hnone]
  · intro hsome hlt
    unfold read_message read_content_length
    rw [hblock2, rcl_skip_headers hs _ none hgood, rcl_clline_some v _ none n hv htrim hsome,
      rcl_go_blank]
    simp [hlt]
  · intro hsome hge
    unfold read_message read_content_length
    rw [hblock2, rcl_skip_headers hs _ none hgood, rcl_clline_some v _ none n hv htrim hsome,
      rcl_go_blank]
    simp [Nat.not_lt.mpr hge]

/-- Witness for the amended C6 theorem: one ignorable header; without a
Content-Length header the read reports it missing, and with
`Content-Length: 2` and body "okzz" the parser receives exactly "ok". -/
theorem read_message_spec_witness :
    read_message parseOnlyOk (headerBlock ["X-Header: y".data] "okzz".data)
      = Except.error ProtocolError.MissingContentLength
    ∧ read_message parseOnlyOk
        (headerBlock ["X-Header: y".data, clHeaderPfx ++ "2".data] "okzz".data)
      = Except.ok (some respOk) := by
  have h := read_message_spec parseOnlyOk ["X-Header: y".data] "2".data 2 "okzz".data
    (by decide) (by decide) (by decide)
  refine ⟨h.1, ?_⟩
  have h4 := h.2.2.2 (by decide) (by decide)
  exact h4.trans (by rfl)

/-- Claim C7: parsing the S6 tagged output (markers and version key
instantiated per the tagged-output protocol) with a Config whose compiler
flags are ["-Xflag", "-Xother"] yields source_roots = [/p/src], classpath =
[/l/a.jar, /l/b.jar], compiler_flags = [-Xflag, -Xother] in this order, and
version 1.2.3. -/
theorem tagged_output_scenario :
    (parse_gradle_output scenarioOutput "/p" scenarioConfig).source_roots = ["/p/src"]
    ∧ (parse_gradle_output scenarioOutput "/p" scenarioConfig).classpath
        = ["/l/a.jar", "/l/b.jar"]
    ∧ (parse_gradle_output scenarioOutput "/p" scenarioConfig).compiler_flags
        = ["-Xflag", "-Xother"]
    ∧ (parse_gradle_output scenarioOutput "/p" scenarioConfig).kotlin_version
        = some "1.2.3" := by
  refine ⟨by decide, by decide, by decide, by decide⟩

/-- Claim C8: the Config-supplied compiler flags are appended after the
flags extracted from the build tool (the extracted list is a prefix of the
merged one), every appended flag comes from the Config list in order, no
flag is appended twice, a Config flag string-equal to one already present
is skipped, and — completeness of the merge — every Config flag ends up in
the merged list: in particular every Config flag not already among the
extracted flags is actually appended after them. -/
theorem config_flag_merge_spec (output root : String) (config : Config) :
    ((parse_gradle_output output root { config with compiler_flags := [] }).compiler_flags <+:
      (parse_gradle_output output root config).compiler_flags)
    ∧ List.Sublist
        ((parse_gradle_output output root config).compiler_flags.drop
          (parse_gradle_output output root
            { config with compiler_flags := [] }).compiler_flags.length)
        config.compiler_flags
    ∧ ((parse_gradle_output output root config).compiler_flags.drop
        (parse_gradle_output output root
          { config with compiler_flags := [] }).compiler_flags.length).Nodup
    ∧ (∀ f ∈ (parse_gradle_output output root config).compiler_flags.drop
        (parse_gradle_output output root
          { config with compiler_flags := [] }).compiler_flags.length,
        f ∉ (parse_gradle_output output root
          { config with compiler_flags := [] }).compiler_flags)
    ∧ (∀ f ∈ config.compiler_flags,
        f ∈ (parse_gradle_output output root config).compiler_flags)
    ∧ (∀ f ∈ config.compiler_flags,
        f ∉ (parse_gradle_output output root
          { config with compiler_flags := [] }).compiler_flags →
        f ∈ (parse_gradle_output output root config).compiler_flags.drop
          (parse_gradle_output output root
            { config with compiler_flags := [] }).compiler_flags.length) := by
  rw [parse_flags_eq_merge output root config]
  obtain ⟨h1, h2, h3, h4⟩ := mergeConfigFlags_spec config.compiler_flags
    (parse_gradle_output output root { config with compiler_flags := [] }).compiler_flags
  have hmem := mergeConfigFlags_mem config.compiler_flags
    (parse_gradle_output output root { config with compiler_flags := [] }).compiler_flags
  refine ⟨h1, h2, h3, h4, ?_, ?_⟩
  · intro f hf
    exact (hmem f).mpr (Or.inr hf)
  · intro f hf hnb
    obtain ⟨T, hT⟩ := h1
    have hdrop : (mergeConfigFlags
        (parse_gradle_output output root { config with compiler_flags := [] }).compiler_flags
        config.compiler_flags).drop
        (parse_gradle_output output root
          { config with compiler_flags := [] }).compiler_flags.length = T := by
      rw [← hT]
      exact List.drop_left _ _
    rw [hdrop]
    have hin := (hmem f).mpr (Or.inr hf)
    rw [← hT] at hin
    rcases List.mem_append.mp hin with h | h
    · exact absurd h hnb
    · exact h

/-- Witness for C8 at the S6 scenario: the extracted flag list [-Xflag] is
a prefix of the merged list [-Xflag, -Xother], and the fresh Config flag
-Xother is actually appended after the extracted flags. -/
theorem config_flag_merge_spec_witness :
    ((parse_gradle_output scenarioOutput "/p"
        { scenarioConfig with compiler_flags := [] }).compiler_flags <+:
      (parse_gradle_output scenarioOutput "/p" scenarioConfig).compiler_flags)
    ∧ "-Xother" ∈ (parse_gradle_output scenarioOutput "/p" scenarioConfig).compiler_flags.drop
        (parse_gradle_output scenarioOutput "/p"
          { scenarioConfig with compiler_flags := [] }).compiler_flags.length := by
  have h := config_flag_merge_spec scenarioOutput "/p" scenarioConfig
  exact ⟨h.1, h.2.2.2.2.2 "-Xother" (by decide) (by decide)⟩

/-- Claim C9: the tagged-output parse is a deterministic function of the
output text, the project root and the Config — equal inputs give equal
ProjectModels (the embedded function reads nothing but its arguments, as
the Rust function does). -/
theorem parse_gradle_deterministic (o1 o2 r1 r2 : String) (c1 c2 : Config)
    (ho : o1 = o2) (hr : r1 = r2) (hc : c1 = c2) :
    parse_gradle_output o1 r1 c1 = parse_gradle_output o2 r2 c2 := by
  subst ho
  subst hr
  subst hc
  rfl

/-- Witness for C9 at the S6 scenario inputs. -/
theorem parse_gradle_deterministic_witness :
    parse_gradle_output scenarioOutput "/p" scenarioConfig
      = parse_gradle_output scenarioOutput "/p" scenarioConfig :=
  parse_gradle_deterministic scenarioOutput scenarioOutput "/p" "/p"
    scenarioConfig scenarioConfig rfl rfl rfl

/-- Claim C10: `shutdown()` on a bridge whose state is already Stopped is a
no-op returning Ok — no pending waiter is cancelled, no shutdown request is
enqueued, the notifiers are not signalled, and every bridge field is left
unchanged. -/
theorem shutdown_stopped_noop (b : BridgeModel) (h : b.state = SidecarState.Stopped) :
    Bridge.shutdown b = (b, [], false, Except.ok ()) := by
  simp [Bridge.shutdown, h]

/-- Witness for C10 at a concrete stopped bridge. -/
theorem shutdown_stopped_noop_witness :
    Bridge.shutdown { state := SidecarState.Stopped, request_id := 4, pending := [], outbox := [] }
      = ({ state := SidecarState.Stopped, request_id := 4, pending := [], outbox := [] }, [],
         false, Except.ok ()) :=
  shutdown_stopped_noop _ rfl

end KotlinAnalyzer
